import Mathlib

set_option maxHeartbeats 1000000

/-!
Shallow embedding of `pgback.py` (a PostgreSQL backup/restore pipeline script).

Conventions used throughout:
* Python runtime values appearing in the docopt `args` dict and in the `conf`
  table are modelled by `PyVal`; Python truthiness by `PyVal.truthy`.
* Strings are handled as `List Char` internally, with `String` wrappers at the
  interfaces; Python's clamping slice semantics are modelled by `pySlice`,
  `pySliceFrom` and `pyTailSlice`, and `str.find`'s `-1` convention by `pyFind`.
* `datetime.strptime` for the configured formats (`--savefmt` default
  `%Y-%m-%d_%H-%M-%S`, `--datefmt` default `%d/%m/%Y`) is modelled after
  CPython's `_strptime` regular expressions (`%Y` is exactly four digits, the
  two-digit fields allow an unpadded single digit), followed by the `datetime`
  constructor's range validation.  `datetime.strftime` zero-pads the two-digit
  fields; years are restricted to 1000..9999 where glibc's `%Y` output is the
  plain four-digit number.  A failed parse (Python `ValueError`) is `none`.
* Side-effecting pipeline functions are modelled by the value they return
  together with the list of shell command strings they issue on the successful
  execution path (on failure `cmd` calls `sys.exit(1)`, so the trace models the
  run in which every spawned command succeeded).
-/

/-- Python runtime values stored in the docopt `args` dict and the `conf` table. -/
inductive PyVal where
  | vNone
  | vFalse
  | vTrue
  | vStr (s : String)
deriving DecidableEq

open PyVal

/-- Python truthiness for the values used by the script:
`None`, `False` and `""` are falsy. -/
def PyVal.truthy : PyVal → Bool
  | vNone => false
  | vFalse => false
  | vTrue => true
  | vStr s => !(s == "")

/-- The string payload of a `PyVal` (the script only concatenates string-valued
options into its command lines). -/
def PyVal.asStr : PyVal → String
  | vStr s => s
  | _ => ""

/-- The `conf = {...}` table from the top of `pgback.py` (lines 25-95). -/
def confPairs : List (String × PyVal) :=
  [("--dir", vStr "/opt/odoo-backups/"),
   ("-u", vStr "username"),
   ("-w", vStr "password"),
   ("-h", vStr "host"),
   ("-p", vStr "port"),
   ("--peer", vFalse),
   ("--fsuser", vStr "username"),
   ("--fskey", vStr "keyfile"),
   ("--fshost", vStr ""),
   ("--fsport", vStr "22"),
   ("--bucket", vStr "my_bucket_name"),
   ("--profile", vStr "<name>"),
   ("--gpgname", vStr "admin@mydomain.com"),
   ("--savefmt", vStr "%Y-%m-%d_%H-%M-%S"),
   ("--datefmt", vStr "%d/%m/%Y"),
   ("--logfile", vStr "/var/log/zorb-backup.log"),
   ("gzipCommand", vStr "gzip"),
   ("gzipOptions", vStr "-9 --force"),
   ("gunzipCommand", vStr "gunzip"),
   ("gunzipOptions", vStr "--force"),
   ("dumpCommand", vStr "pg_dump"),
   ("dumpOptions", vStr "-E UTF-8 -F p -b"),
   ("restoreCommand", vStr "psql"),
   ("restoreOptions", vStr ""),
   ("createCommand", vStr "createdb"),
   ("createOptions", vStr ""),
   ("encryptCommand", vStr "gpg"),
   ("encryptOptions", vStr "--no-use-agent --quiet --no-tty --batch --yes --cipher-algo AES256"),
   ("decryptCommand", vStr "gpg"),
   ("decryptOptions", vStr "--no-use-agent --quiet --yes"),
   ("alwaysCleanup", vFalse)]

/-- `name in conf` / `conf[name]` lookup. -/
def conf (name : String) : Option PyVal :=
  (confPairs.find? (fun p => p.1 == name)).map (fun p => p.2)

/-- The docopt `args` dict, as a partial map (a key that docopt did not define
is absent, i.e. `none`). -/
def ArgsMap : Type := String → Option PyVal

/-- The fall-through part of `arg` (lines 221-227): caller default, then the
config table, then `False`. -/
def argRest (name : String) (default : PyVal) : PyVal :=
  if default ≠ vNone then default
  else
    match conf name with
    | some w => if w ≠ vNone then w else vFalse
    | none => vFalse

/-- `arg(name, default=None)` (lines 217-227): the parsed CLI value when it is
neither `None` nor `False`, otherwise the fall-through chain `argRest`. -/
def arg (args : ArgsMap) (name : String) (default : PyVal) : PyVal :=
  match args name with
  | some v => if v ≠ vNone ∧ v ≠ vFalse then v else argRest name default
  | none => argRest name default

/-- Replace (or delete, with `none`) one key of an `ArgsMap`. -/
def setKey (m : ArgsMap) (k : String) (v : Option PyVal) : ArgsMap :=
  fun n => if n = k then v else m n

/-- `say(message, sameline, silent=True)` (lines 189-198): returns the line it
prints, or `none` when output is suppressed.  Output is suppressed exactly when
(`arg("-s") or arg("--silent")`) is truthy and the `silent` parameter is true. -/
def say (args : ArgsMap) (message : String) (silentParam : Bool) : Option String :=
  if ((arg args "-s" vNone).truthy || (arg args "--silent" vNone).truthy) && silentParam then
    none
  else
    some message

/-- Result of one `promptYesNo` call: the returned boolean, whether
`raw_input()` was executed, and the lines printed to stdout. -/
structure PromptResult where
  ret : Option Bool
  readsInput : Bool
  printed : List String
deriving DecidableEq

/-- `promptYesNo(message, default=False)` (lines 230-242) for the boolean
defaults used at every call site (the `" [y/n]:"` prompt and the trailing
three-way branch are unreachable for a boolean `default`).  `input` is what
`raw_input()` would yield when it is executed. -/
def promptYesNo (args : ArgsMap) (message : String) (default : Bool) (input : String) :
    PromptResult :=
  if (arg args "-x" vNone).truthy || (arg args "--noconfirm" vNone).truthy then
    ⟨some true, false, []⟩
  else
    let prompt := if default then " [Y/n]:" else " [y/N]:"
    let printed := (say args (message ++ prompt) false).toList
    let choice := input.toLower
    if !default then
      ⟨some (choice == "y"), true, printed⟩
    else
      ⟨some (!(choice == "n")), true, printed⟩

/-- A `datetime.datetime` value at the (second) precision of the configured
`--savefmt` format. -/
structure DateTime where
  year : Nat
  month : Nat
  day : Nat
  hour : Nat
  minute : Nat
  second : Nat
deriving DecidableEq

/-- A `datetime.date` value (what `.date()` returns). -/
structure Date where
  year : Nat
  month : Nat
  day : Nat
deriving DecidableEq

/-- `datetime.date()`: the calendar-day component. -/
def DateTime.dateOf (ts : DateTime) : Date :=
  ⟨ts.year, ts.month, ts.day⟩

/-- Gregorian leap-year test (as in Python's `calendar`/`datetime`). -/
def isLeapYear (y : Nat) : Bool :=
  y % 4 == 0 && (y % 100 != 0 || y % 400 == 0)

/-- Days in a month, as validated by the `datetime` constructor. -/
def daysInMonth (y m : Nat) : Nat :=
  if m = 2 then (if isLeapYear y then 29 else 28)
  else if m = 4 ∨ m = 6 ∨ m = 9 ∨ m = 11 then 30
  else 31

/-- A `DateTime` is exactly representable in the default `--savefmt` format
`%Y-%m-%d_%H-%M-%S`: a valid `datetime` (so `strftime` emits it and `strptime`
reads it back) with a four-digit year. -/
def validDT (ts : DateTime) : Bool :=
  1000 ≤ ts.year && ts.year ≤ 9999 &&
  1 ≤ ts.month && ts.month ≤ 12 &&
  1 ≤ ts.day && ts.day ≤ daysInMonth ts.year ts.month &&
  ts.hour ≤ 23 && ts.minute ≤ 59 && ts.second ≤ 59

/-- The ASCII digit character for `n < 10`. -/
def digitChar (n : Nat) : Char :=
  Char.ofNat (48 + n)

/-- Zero-padded two-digit field, as `strftime` emits for `%m %d %H %M %S`. -/
def pad2 (n : Nat) : List Char :=
  [digitChar (n / 10), digitChar (n % 10)]

/-- Four-digit field, as `strftime` emits for `%Y` on years 1000..9999. -/
def pad4 (n : Nat) : List Char :=
  [digitChar (n / 1000), digitChar (n / 100 % 10), digitChar (n / 10 % 10), digitChar (n % 10)]

/-- `datetime.strftime` for the configured `--savefmt` `"%Y-%m-%d_%H-%M-%S"`. -/
def strftimeSaveL (ts : DateTime) : List Char :=
  pad4 ts.year ++ ['-'] ++ pad2 ts.month ++ ['-'] ++ pad2 ts.day ++ ['_'] ++
  pad2 ts.hour ++ ['-'] ++ pad2 ts.minute ++ ['-'] ++ pad2 ts.second

/-- `%Y` of CPython `_strptime`: exactly four ASCII digits. -/
def parseYear4 : List Char → Option (Nat × List Char)
  | c1 :: c2 :: c3 :: c4 :: rest =>
    if 48 ≤ c1.toNat ∧ c1.toNat ≤ 57 ∧ 48 ≤ c2.toNat ∧ c2.toNat ≤ 57 ∧
       48 ≤ c3.toNat ∧ c3.toNat ≤ 57 ∧ 48 ≤ c4.toNat ∧ c4.toNat ≤ 57 then
      some (1000 * (c1.toNat - 48) + 100 * (c2.toNat - 48) + 10 * (c3.toNat - 48) +
            (c4.toNat - 48), rest)
    else none
  | _ => none

/-- `%m` of CPython `_strptime`: the regular expression `1[0-2]|0[1-9]|[1-9]`. -/
def parseMonth : List Char → Option (Nat × List Char)
  | [] => none
  | [c1] =>
    if 49 ≤ c1.toNat ∧ c1.toNat ≤ 57 then some (c1.toNat - 48, []) else none
  | c1 :: c2 :: rest =>
    if c1.toNat = 49 ∧ 48 ≤ c2.toNat ∧ c2.toNat ≤ 50 then
      some (10 + (c2.toNat - 48), rest)
    else if c1.toNat = 48 ∧ 49 ≤ c2.toNat ∧ c2.toNat ≤ 57 then
      some (c2.toNat - 48, rest)
    else if 49 ≤ c1.toNat ∧ c1.toNat ≤ 57 then
      some (c1.toNat - 48, c2 :: rest)
    else none

/-- `%d` of CPython `_strptime`: the regular expression `3[01]|[12]\d|0[1-9]|[1-9]`. -/
def parseDay : List Char → Option (Nat × List Char)
  | [] => none
  | [c1] =>
    if 49 ≤ c1.toNat ∧ c1.toNat ≤ 57 then some (c1.toNat - 48, []) else none
  | c1 :: c2 :: rest =>
    if c1.toNat = 51 ∧ 48 ≤ c2.toNat ∧ c2.toNat ≤ 49 then
      some (30 + (c2.toNat - 48), rest)
    else if 49 ≤ c1.toNat ∧ c1.toNat ≤ 50 ∧ 48 ≤ c2.toNat ∧ c2.toNat ≤ 57 then
      some (10 * (c1.toNat - 48) + (c2.toNat - 48), rest)
    else if c1.toNat = 48 ∧ 49 ≤ c2.toNat ∧ c2.toNat ≤ 57 then
      some (c2.toNat - 48, rest)
    else if 49 ≤ c1.toNat ∧ c1.toNat ≤ 57 then
      some (c1.toNat - 48, c2 :: rest)
    else none

/-- `%H` of CPython `_strptime`: the regular expression `2[0-3]|[0-1]\d|\d`. -/
def parseHour : List Char → Option (Nat × List Char)
  | [] => none
  | [c1] =>
    if 48 ≤ c1.toNat ∧ c1.toNat ≤ 57 then some (c1.toNat - 48, []) else none
  | c1 :: c2 :: rest =>
    if c1.toNat = 50 ∧ 48 ≤ c2.toNat ∧ c2.toNat ≤ 51 then
      some (20 + (c2.toNat - 48), rest)
    else if 48 ≤ c1.toNat ∧ c1.toNat ≤ 49 ∧ 48 ≤ c2.toNat ∧ c2.toNat ≤ 57 then
      some (10 * (c1.toNat - 48) + (c2.toNat - 48), rest)
    else if 48 ≤ c1.toNat ∧ c1.toNat ≤ 57 then
      some (c1.toNat - 48, c2 :: rest)
    else none

/-- `%M` of CPython `_strptime`: the regular expression `[0-5]\d|\d`. -/
def parseMin : List Char → Option (Nat × List Char)
  | [] => none
  | [c1] =>
    if 48 ≤ c1.toNat ∧ c1.toNat ≤ 57 then some (c1.toNat - 48, []) else none
  | c1 :: c2 :: rest =>
    if 48 ≤ c1.toNat ∧ c1.toNat ≤ 53 ∧ 48 ≤ c2.toNat ∧ c2.toNat ≤ 57 then
      some (10 * (c1.toNat - 48) + (c2.toNat - 48), rest)
    else if 48 ≤ c1.toNat ∧ c1.toNat ≤ 57 then
      some (c1.toNat - 48, c2 :: rest)
    else none

/-- `%S` of CPython `_strptime`: the regular expression `6[0-1]|[0-5]\d|\d`
(leap seconds are matched, then rejected by the `datetime` constructor). -/
def parseSec : List Char → Option (Nat × List Char)
  | [] => none
  | [c1] =>
    if 48 ≤ c1.toNat ∧ c1.toNat ≤ 57 then some (c1.toNat - 48, []) else none
  | c1 :: c2 :: rest =>
    if c1.toNat = 54 ∧ 48 ≤ c2.toNat ∧ c2.toNat ≤ 49 then
      some (60 + (c2.toNat - 48), rest)
    else if 48 ≤ c1.toNat ∧ c1.toNat ≤ 53 ∧ 48 ≤ c2.toNat ∧ c2.toNat ≤ 57 then
      some (10 * (c1.toNat - 48) + (c2.toNat - 48), rest)
    else if 48 ≤ c1.toNat ∧ c1.toNat ≤ 57 then
      some (c1.toNat - 48, c2 :: rest)
    else none

/-- Consume one expected literal character of the format. -/
def expectChar (c : Char) : List Char → Option (List Char)
  | [] => none
  | x :: rest => if x = c then some rest else none

/-- `datetime.strptime(s, "%Y-%m-%d_%H-%M-%S")`: the field regular expressions
in sequence, the whole string consumed ("unconverted data remains" otherwise),
then the `datetime` constructor's validation (`MINYEAR <= year`, day within the
month, seconds below 60). -/
def strptimeSaveL (cs : List Char) : Option DateTime := do
  let (y, r1) ← parseYear4 cs
  let r2 ← expectChar '-' r1
  let (mo, r3) ← parseMonth r2
  let r4 ← expectChar '-' r3
  let (d, r5) ← parseDay r4
  let r6 ← expectChar '_' r5
  let (h, r7) ← parseHour r6
  let r8 ← expectChar '-' r7
  let (mi, r9) ← parseMin r8
  let r10 ← expectChar '-' r9
  let (s, r11) ← parseSec r10
  if r11 = [] ∧ 1 ≤ y ∧ d ≤ daysInMonth y mo ∧ s ≤ 59 then
    some ⟨y, mo, d, h, mi, s⟩
  else none

/-- `datetime.strptime(s, "%d/%m/%Y").date()`: the configured `--datefmt`. -/
def strptimeDateFmtL (cs : List Char) : Option Date := do
  let (d, r1) ← parseDay cs
  let r2 ← expectChar '/' r1
  let (mo, r3) ← parseMonth r2
  let r4 ← expectChar '/' r3
  let (y, r5) ← parseYear4 r4
  if r5 = [] ∧ 1 ≤ y ∧ d ≤ daysInMonth y mo then
    some ⟨y, mo, d⟩
  else none

/-- String-level wrapper for `strftime` with the configured `--savefmt`. -/
def strftimeSave (ts : DateTime) : String :=
  String.mk (strftimeSaveL ts)

/-- String-level wrapper for `strptime` with the configured `--savefmt`. -/
def strptimeSave (s : String) : Option DateTime :=
  strptimeSaveL s.toList

/-- String-level wrapper for `strptime(...).date()` with the configured `--datefmt`. -/
def strptimeDateFmt (s : String) : Option Date :=
  strptimeDateFmtL s.toList

/-- `os.path.basename`: everything after the last `/`. -/
def basenameL (cs : List Char) : List Char :=
  (cs.reverse.takeWhile (fun c => !(c == '/'))).reverse

/-- Normalize one Python slice index against a sequence length: negative
indices count from the end, and both ends clamp. -/
def pyNorm (len : Nat) (i : Int) : Nat :=
  if i < 0 then ((len : Int) + i).toNat else min i.toNat len

/-- Python `s[a:b]`. -/
def pySlice (cs : List Char) (a b : Int) : List Char :=
  (cs.take (pyNorm cs.length b)).drop (pyNorm cs.length a)

/-- Python `s[a:]`. -/
def pySliceFrom (cs : List Char) (a : Int) : List Char :=
  cs.drop (pyNorm cs.length a)

/-- Python `s[-k:]` for `k > 0` (the whole string when `len(s) < k`). -/
def pyTailSlice (cs : List Char) (k : Nat) : List Char :=
  cs.drop (cs.length - k)

/-- Python `s[:-k]` for `k > 0`. -/
def pyDropTail (cs : List Char) (k : Nat) : List Char :=
  cs.take (cs.length - k)

/-- First index of `pat` in `cs`, or `none` (`str.find`'s successful case). -/
def findSubAux : List Char → List Char → Option Nat
  | cs, pat =>
    if pat.isPrefixOf cs then some 0
    else
      match cs with
      | [] => none
      | _ :: t => (findSubAux t pat).map Nat.succ

/-- Python `cs.find(pat)`: first index, or `-1`. -/
def pyFind (cs pat : List Char) : Int :=
  match findSubAux cs pat with
  | some n => (n : Int)
  | none => -1

/-- Does `cs` contain `pat` as a contiguous substring? -/
def hasSub (cs pat : List Char) : Bool :=
  (findSubAux cs pat).isSome

/-- `parseFilename` (lines 265-281) over `List Char`: take the basename, strip
at most one trailing `.gpg`, then `.gz`, then `.pgdump`, locate the separator
with `find` (which yields `-1` when absent), slice the name and the timestamp
out with Python slice semantics, and parse the timestamp with the configured
`--savefmt`.  `none` models the uncaught `ValueError` from `strptime`. -/
def parseFilenameL (cs0 : List Char) : Option (List Char × DateTime) :=
  let cs1 := basenameL cs0
  let cs2 := if pyTailSlice cs1 4 == ".gpg".toList then pyDropTail cs1 4 else cs1
  let cs3 := if pyTailSlice cs2 3 == ".gz".toList then pyDropTail cs2 3 else cs2
  let cs4 := if pyTailSlice cs3 7 == ".pgdump".toList then pyDropTail cs3 7 else cs3
  let sep := pyFind cs4 ['_', '_']
  let dbname := pySlice cs4 0 sep
  let rest := pySliceFrom cs4 (sep + 2)
  (strptimeSaveL rest).map (fun dt => (dbname, dt))

/-- String-level `parseFilename`. -/
def parseFilename (s : String) : Option (String × DateTime) :=
  (parseFilenameL s.toList).map (fun p => (String.mk p.1, p.2))

/-- The filename built by `create` (lines 531-533):
`dbName + "__" + datetime.now().strftime(arg("--savefmt")) + ".pgdump"`. -/
def encodeFilename (dbName : String) (ts : DateTime) : String :=
  dbName ++ "__" ++ strftimeSave ts ++ ".pgdump"

/-- One candidate backup record `[dbname, dbdate, filename]` as built by
`searchOnS3` (line 446). -/
structure Backup where
  dbname : String
  dbdate : DateTime
  filename : String
deriving DecidableEq

/-- Python's `datetime < datetime`: lexicographic on the six components. -/
def dtLt (a b : DateTime) : Bool :=
  a.year < b.year ||
  (a.year == b.year && (a.month < b.month ||
    (a.month == b.month && (a.day < b.day ||
      (a.day == b.day && (a.hour < b.hour ||
        (a.hour == b.hour && (a.minute < b.minute ||
          (a.minute == b.minute && a.second < b.second)))))))))

/-- The loop body of `findNewest`: `if backup[1] > match[1]: match = backup`. -/
def newerOf (m x : Backup) : Backup :=
  if dtLt m.dbdate x.dbdate then x else m

/-- `findNewest(backups)` (lines 284-294).  `none` models the `IndexError`
raised by `backups[0]` on an empty list. -/
def findNewest : List Backup → Option Backup
  | [] => none
  | b :: rest =>
    if (b :: rest).length == 1 then some b
    else some ((b :: rest).foldl newerOf b)

/-- Outcome of the selection part of `searchOnS3` (lines 434-489). -/
inductive SearchOutcome where
  | noBackupsFound
  | dateParseFailure
  | noMatchForDate
  | noValidBackups
  | indexFailure
  | found (filename : String)
deriving DecidableEq

/-- The value of the `match` variable after the criterion branches: `None`, a
backup record, or (in the `--name` branch) the requested name string itself. -/
inductive MatchVal where
  | noneM
  | backupM (b : Backup)
  | nameM (s : String)
deriving DecidableEq

/-- Lines 481-489: `if not match: exit(1)` (a backup record, being a non-empty
list, is always truthy; in the `--name` branch `match` is a non-empty string),
then `return match[2]` — the filename field of a record, but the *third
character* of the string in the `--name` branch (`IndexError` when shorter). -/
def finishMatch : MatchVal → SearchOutcome
  | MatchVal.noneM => SearchOutcome.noValidBackups
  | MatchVal.backupM b => SearchOutcome.found b.filename
  | MatchVal.nameM s =>
    match s.toList with
    | _ :: _ :: c :: _ => SearchOutcome.found (String.mk [c])
    | _ => SearchOutcome.indexFailure

/-- Wrap `findNewest`'s result (`none` is unreachable under the length guards). -/
def matchOfOpt : Option Backup → MatchVal
  | none => MatchVal.noneM
  | some b => MatchVal.backupM b

/-- The selection logic of `searchOnS3` (lines 448-489) over the candidate
records already filtered by `dbname == sourceDbName`.  `date` and `name` carry
the values of `arg("--date")` and `arg("--name")` (`vFalse` when absent). -/
def searchSelect (backups : List Backup) (date name : PyVal) : SearchOutcome :=
  if backups.length < 1 then SearchOutcome.noBackupsFound
  else if date.truthy then
    match strptimeDateFmt date.asStr with
    | none => SearchOutcome.dateParseFailure
    | some td =>
      let matchList := backups.filter (fun b => b.dbdate.dateOf == td)
      if matchList.length < 1 then SearchOutcome.noMatchForDate
      else finishMatch (matchOfOpt (findNewest matchList))
  else if name.truthy then
    finishMatch
      (match backups.find? (fun b => b.dbname == name.asStr) with
       | some _ => MatchVal.nameM name.asStr
       | none => MatchVal.noneM)
  else finishMatch (matchOfOpt (findNewest backups))

/-- The string value of a `conf` entry (for command templates such as
`encryptCommand`, `arg` returns the config value because those keys are never
CLI options). -/
def confStr (name : String) : String :=
  match conf name with
  | some (vStr s) => s
  | _ => ""

/-- Result of `encryptFile`: the new file reference, the shell commands issued
on the success path, and the warning lines passed to `say`. -/
structure EncryptResult where
  ref : String
  cmds : List String
  notes : List String
deriving DecidableEq

/-- `encryptFile(absFilename, recipient=None, password=None)` (lines 326-346). -/
def encryptFile (absFilename : String) (recipient password : PyVal) : EncryptResult :=
  if !password.truthy && !recipient.truthy then ⟨absFilename, [], []⟩
  else
    let notes :=
      if password.truthy && recipient.truthy then
        ["Both --gpgpass and --gpgname were supplied, but they can not be used in combination.",
         "Falling back to --gpgname..."]
      else []
    let command :=
      if recipient.truthy then
        confStr "encryptCommand" ++ " " ++ confStr "encryptOptions" ++ " -o " ++
          absFilename ++ ".gpg -r " ++ recipient.asStr ++ " -e " ++ absFilename
      else
        confStr "encryptCommand" ++ " " ++ confStr "encryptOptions" ++ " -o " ++
          absFilename ++ ".gpg --passphrase " ++ password.asStr ++ " -c " ++ absFilename
    ⟨absFilename ++ ".gpg", [command, "rm -f " ++ absFilename], notes⟩

/-- Python `s[:-4]` at `String` level. -/
def pyDropTailS (s : String) (k : Nat) : String :=
  String.mk (pyDropTail s.toList k)

/-- `decryptFile(filename)` (lines 349-356).  The body builds the gpg command
from the module-level global `absFilename` (passed here as `gAbsFilename`; at
the only call site it holds the same string as `filename`), runs it, then runs
`rm -f filename`, and returns `filename[:-4]`.  The result is the returned
reference together with the commands issued on the success path, in order. -/
def decryptFile (filename gAbsFilename : String) : String × List String :=
  (pyDropTailS filename 4,
   [confStr "decryptCommand" ++ " " ++ confStr "decryptOptions" ++ " -o " ++
      pyDropTailS gAbsFilename 4 ++ " -d " ++ gAbsFilename,
    "rm -f " ++ filename])

/-- Timestamp used in concrete instances: 2021-03-01 12:30:45. -/
def dtEx : DateTime := ⟨2021, 3, 1, 12, 30, 45⟩

/-- The candidate set from the spec's selector examples:
`[("db", 2021-01-01), ("db", 2021-03-01), ("db", 2020-12-31)]`. -/
def backupsEx : List Backup :=
  [⟨"db", ⟨2021, 1, 1, 0, 0, 0⟩, "db__2021-01-01_00-00-00.pgdump"⟩,
   ⟨"db", ⟨2021, 3, 1, 0, 0, 0⟩, "db__2021-03-01_00-00-00.pgdump"⟩,
   ⟨"db", ⟨2020, 12, 31, 0, 0, 0⟩, "db__2020-12-31_00-00-00.pgdump"⟩]

/-- A single-record candidate set for the `--name` criterion. -/
def backupsOne : List Backup :=
  [⟨"mydb", ⟨2021, 1, 1, 0, 0, 0⟩, "mydb__2021-01-01_00-00-00.pgdump"⟩]

/-- A docopt args map with only `--silent` set. -/
def argsSilent : ArgsMap := fun n => if n = "--silent" then some vTrue else none

/-- A docopt args map with only `--noconfirm` set. -/
def argsNoconfirm : ArgsMap := fun n => if n = "--noconfirm" then some vTrue else none

/-- A docopt args map with a string value for `--bucket`. -/
def cliWithBucket : ArgsMap := fun n => if n = "--bucket" then some (vStr "b1") else none

/-! ## Helper lemmas -/

theorem take_len_append {α : Type} (A B : List α) : (A ++ B).take A.length = A := by
  induction A with
  | nil => rfl
  | cons a t ih => simp [List.take, ih]

theorem drop_len_append {α : Type} (A B : List α) (n : Nat) :
    (A ++ B).drop (A.length + n) = B.drop n := by
  induction A with
  | nil => simp
  | cons a t ih => simp [Nat.succ_add, ih]

theorem dtLt_iff (a b : DateTime) : dtLt a b = true ↔
    (a.year < b.year ∨ (a.year = b.year ∧ (a.month < b.month ∨ (a.month = b.month ∧
      (a.day < b.day ∨ (a.day = b.day ∧ (a.hour < b.hour ∨ (a.hour = b.hour ∧
        (a.minute < b.minute ∨ (a.minute = b.minute ∧ a.second < b.second)))))))))) := by
  simp [dtLt]

theorem dtLt_irrefl (a : DateTime) : dtLt a a = false := by
  rw [Bool.eq_false_iff, Ne, dtLt_iff]; omega

theorem dtLt_asymm {a b : DateTime} (h : dtLt a b = true) : dtLt b a = false := by
  rw [dtLt_iff] at h
  rw [Bool.eq_false_iff, Ne, dtLt_iff]
  omega

theorem dtLt_trans {a b c : DateTime} (h1 : dtLt a b = true) (h2 : dtLt b c = true) :
    dtLt a c = true := by
  rw [dtLt_iff] at h1 h2 ⊢
  omega

theorem dtLt_cross {a b c : DateTime} (h1 : dtLt a b = true) (h2 : dtLt a c = false) :
    dtLt c b = true := by
  rw [dtLt_iff] at h1 ⊢
  rw [Bool.eq_false_iff, Ne, dtLt_iff] at h2
  omega

theorem foldl_newerOf_spec (l : List Backup) : ∀ acc : Backup,
    (l.foldl newerOf acc = acc ∧ ∀ b ∈ l, dtLt acc.dbdate b.dbdate = false) ∨
    (∃ l₁ m l₂, l = l₁ ++ m :: l₂ ∧ l.foldl newerOf acc = m ∧
      dtLt acc.dbdate m.dbdate = true ∧
      (∀ c ∈ l₁, dtLt c.dbdate m.dbdate = true) ∧
      (∀ b ∈ l₂, dtLt m.dbdate b.dbdate = false)) := by
  induction l with
  | nil =>
    intro acc
    left
    exact ⟨rfl, by simp⟩
  | cons x xs ih =>
    intro acc
    by_cases hx : dtLt acc.dbdate x.dbdate = true
    · have hstep : newerOf acc x = x := by simp [newerOf, hx]
      rcases ih x with ⟨heq, hall⟩ | ⟨l₁, m, l₂, hdec, heq, hlt, hl₁, hl₂⟩
      · right
        refine ⟨[], x, xs, by simp, ?_, hx, by simp, hall⟩
        simpa [hstep] using heq
      · right
        refine ⟨x :: l₁, m, l₂, by simp [hdec], ?_, dtLt_trans hx hlt, ?_, hl₂⟩
        · simpa [hstep] using heq
        · intro c hc
          rcases List.mem_cons.mp hc with hcx | hcl
          · exact hcx ▸ hlt
          · exact hl₁ c hcl
    · rw [Bool.not_eq_true] at hx
      have hstep : newerOf acc x = acc := by simp [newerOf, hx]
      rcases ih acc with ⟨heq, hall⟩ | ⟨l₁, m, l₂, hdec, heq, hlt, hl₁, hl₂⟩
      · left
        constructor
        · simpa [hstep] using heq
        · intro b hb
          rcases List.mem_cons.mp hb with hbx | hbl
          · exact hbx ▸ hx
          · exact hall b hbl
      · right
        refine ⟨x :: l₁, m, l₂, by simp [hdec], ?_, hlt, ?_, hl₂⟩
        · simpa [hstep] using heq
        · intro c hc
          rcases List.mem_cons.mp hc with hcx | hcl
          · exact hcx ▸ dtLt_cross hlt hx
          · exact hl₁ c hcl

theorem findNewest_spec (l : List Backup) (h : l ≠ []) :
    ∃ m l₁ l₂, findNewest l = some m ∧ l = l₁ ++ m :: l₂ ∧
      (∀ c ∈ l₁, dtLt c.dbdate m.dbdate = true) ∧
      (∀ b ∈ l, dtLt m.dbdate b.dbdate = false) := by
  match l with
  | [] => exact absurd rfl h
  | b :: rest =>
    by_cases hlen : ((b :: rest).length == 1) = true
    · have hrest : rest = [] := by
        simp only [List.length_cons, beq_iff_eq] at hlen
        exact List.length_eq_zero.mp (by omega)
      subst hrest
      exact ⟨b, [], [], by simp [findNewest], rfl, by simp,
        by simp [dtLt_irrefl]⟩
    · have hfold : findNewest (b :: rest) = some (rest.foldl newerOf b) := by
        rw [findNewest, if_neg hlen, List.foldl_cons]
        rw [show newerOf b b = b by simp [newerOf, dtLt_irrefl]]
      rcases foldl_newerOf_spec rest b with ⟨heq, hall⟩ | ⟨l₁, m, l₂, hdec, heq, hlt, hl₁, hl₂⟩
      · refine ⟨b, [], rest, by rw [hfold, heq], rfl, by simp, ?_⟩
        intro x hx
        rcases List.mem_cons.mp hx with hxb | hxl
        · exact hxb ▸ dtLt_irrefl b.dbdate
        · exact hall x hxl
      · refine ⟨m, b :: l₁, l₂, by rw [hfold, heq], by simp [hdec], ?_, ?_⟩
        · intro c hc
          rcases List.mem_cons.mp hc with hcb | hcl
          · exact hcb ▸ hlt
          · exact hl₁ c hcl
        · intro x hx
          rcases List.mem_cons.mp hx with hxb | hxl
          · exact hxb ▸ dtLt_asymm hlt
          · rw [hdec] at hxl
            rcases List.mem_append.mp hxl with hx₁ | hxm
            · exact dtLt_asymm (hl₁ x hx₁)
            · rcases List.mem_cons.mp hxm with hxm' | hx₂
              · exact hxm' ▸ dtLt_irrefl m.dbdate
              · exact hl₂ x hx₂

/-! ## Claims about the backup selector -/

/-- C5 (confirmed): on a non-empty candidate list, `findNewest` returns a
record with maximal `created_at`; when several records share that maximal
timestamp, the first-encountered one wins (every record strictly before the
returned one in the list has a strictly smaller timestamp, and no record at
all has a strictly larger one). -/
theorem c5_findNewest_first_max (backups : List Backup) (h : backups ≠ []) :
    ∃ m l₁ l₂, findNewest backups = some m ∧ backups = l₁ ++ m :: l₂ ∧
      (∀ c ∈ l₁, dtLt c.dbdate m.dbdate = true) ∧
      (∀ b ∈ backups, dtLt m.dbdate b.dbdate = false) :=
  findNewest_spec backups h

/-- Witness for C5 at the spec's example list: the 2021-03-01 record is
returned. -/
theorem c5_findNewest_first_max_witness :
    backupsEx ≠ [] ∧
    (∃ m l₁ l₂, findNewest backupsEx = some m ∧ backupsEx = l₁ ++ m :: l₂ ∧
      (∀ c ∈ l₁, dtLt c.dbdate m.dbdate = true) ∧
      (∀ b ∈ backupsEx, dtLt m.dbdate b.dbdate = false)) ∧
    findNewest backupsEx =
      some ⟨"db", ⟨2021, 3, 1, 0, 0, 0⟩, "db__2021-03-01_00-00-00.pgdump"⟩ :=
  ⟨by decide, c5_findNewest_first_max backupsEx (by decide), by decide⟩

/-- C7 (confirmed): on an empty candidate list the selector fails with
`NoBackupsFound` (the `len(backups) < 1` guard) no matter which values
`--date` and `--name` carry, before any criterion-specific filtering. -/
theorem c7_empty_noBackupsFound (date name : PyVal) :
    searchSelect [] date name = SearchOutcome.noBackupsFound := rfl

/-- C3 (code bug): with `--name` set to the literal filename of the only
candidate record, the linear scan compares the requested name against the
*parsed database name* `backup[0]`, never the filename, so the selection fails
with the "no valid backups" exit; and when the requested name happens to equal
the database name, `return match[2]` yields the third character of the name
string rather than the record. -/
theorem c3_byname_compares_dbname :
    searchSelect backupsOne vFalse (vStr "mydb__2021-01-01_00-00-00.pgdump") =
      SearchOutcome.noValidBackups ∧
    searchSelect backupsOne vFalse (vStr "mydb") = SearchOutcome.found "d" := by
  constructor
  · rfl
  · rfl

/-- C2 (code bug): a filename with no `__` separator is not rejected.
`filename.find("__")` yields `-1`, so `filename[0:-1]` (all but the last
character) becomes the database name and `filename[1:]` the timestamp field;
when the latter happens to match the format, `parseFilename` returns a bogus
pair instead of failing. -/
theorem c2_no_separator_misparse :
    hasSub "x2021-01-01_00-00-00.pgdump".toList ['_', '_'] = false ∧
    parseFilename "x2021-01-01_00-00-00.pgdump" =
      some ("x2021-01-01_00-00-0", ⟨2021, 1, 1, 0, 0, 0⟩) := by
  constructor
  · decide
  · rfl

/-! ## Claims about the encrypt/decrypt stages -/

/-- C4 (confirmed): for a file reference ending in `.gpg`, `decryptFile`
returns the reference with the trailing `.gpg` stripped, and its success-path
command trace is the gpg invocation followed by `rm -f` on the encrypted
file. -/
theorem c4_decrypt_strips_gpg (filename gAbs : String)
    (h : ".gpg".toList <:+ filename.toList) :
    (decryptFile filename gAbs).1 ++ ".gpg" = filename ∧
    (decryptFile filename gAbs).2 =
      [confStr "decryptCommand" ++ " " ++ confStr "decryptOptions" ++ " -o " ++
         pyDropTailS gAbs 4 ++ " -d " ++ gAbs,
       "rm -f " ++ filename] := by
  refine ⟨?_, rfl⟩
  obtain ⟨t, ht⟩ := h
  apply String.ext
  rw [String.data_append]
  show pyDropTail filename.data 4 ++ ".gpg".data = filename.data
  have hd : filename.data = t ++ ".gpg".data := ht.symm
  rw [hd]
  unfold pyDropTail
  have h4 : (".gpg".data).length = 4 := rfl
  have hlen : (t ++ ".gpg".data).length - 4 = t.length := by
    rw [List.length_append, h4]
    omega
  rw [hlen, take_len_append]

/-- Witness for C4 at `"x.pgdump.gpg"`. -/
theorem c4_decrypt_strips_gpg_witness :
    (".gpg".toList <:+ "x.pgdump.gpg".toList) ∧
    ((decryptFile "x.pgdump.gpg" "x.pgdump.gpg").1 ++ ".gpg" = "x.pgdump.gpg" ∧
     (decryptFile "x.pgdump.gpg" "x.pgdump.gpg").2 =
       [confStr "decryptCommand" ++ " " ++ confStr "decryptOptions" ++ " -o " ++
          pyDropTailS "x.pgdump.gpg" 4 ++ " -d " ++ "x.pgdump.gpg",
        "rm -f " ++ "x.pgdump.gpg"]) :=
  ⟨⟨"x.pgdump".toList, by decide⟩,
   c4_decrypt_strips_gpg "x.pgdump.gpg" "x.pgdump.gpg" ⟨"x.pgdump".toList, by decide⟩⟩

/-- C8 (confirmed): when both a recipient and a passphrase are supplied,
`encryptFile` does not fail: it emits the two warning lines and runs the
recipient-based (`-r ... -e`) gpg command; when neither is supplied it returns
the reference unchanged with no commands and no warnings. -/
theorem c8_encrypt_precedence (f : String) (recipient password : PyVal) :
    (recipient.truthy = true → password.truthy = true →
      encryptFile f recipient password =
        ⟨f ++ ".gpg",
         [confStr "encryptCommand" ++ " " ++ confStr "encryptOptions" ++ " -o " ++
            f ++ ".gpg -r " ++ recipient.asStr ++ " -e " ++ f,
          "rm -f " ++ f],
         ["Both --gpgpass and --gpgname were supplied, but they can not be used in combination.",
          "Falling back to --gpgname..."]⟩) ∧
    (recipient.truthy = false → password.truthy = false →
      encryptFile f recipient password = ⟨f, [], []⟩) := by
  constructor
  · intro h1 h2
    simp [encryptFile, h1, h2]
  · intro h1 h2
    simp [encryptFile, h1, h2]

/-- Witness for C8: both supplied (recipient wins, with warnings), and neither
supplied (no-op). -/
theorem c8_encrypt_precedence_witness :
    ((vStr "admin@mydomain.com").truthy = true ∧ (vStr "pw").truthy = true ∧
      encryptFile "f.pgdump.gz" (vStr "admin@mydomain.com") (vStr "pw") =
        ⟨"f.pgdump.gz" ++ ".gpg",
         [confStr "encryptCommand" ++ " " ++ confStr "encryptOptions" ++ " -o " ++
            "f.pgdump.gz" ++ ".gpg -r " ++ (vStr "admin@mydomain.com").asStr ++
            " -e " ++ "f.pgdump.gz",
          "rm -f " ++ "f.pgdump.gz"],
         ["Both --gpgpass and --gpgname were supplied, but they can not be used in combination.",
          "Falling back to --gpgname..."]⟩) ∧
    (vFalse.truthy = false ∧ vFalse.truthy = false ∧
      encryptFile "f.pgdump.gz" vFalse vFalse = ⟨"f.pgdump.gz", [], []⟩) :=
  ⟨⟨rfl, rfl, (c8_encrypt_precedence "f.pgdump.gz" (vStr "admin@mydomain.com") (vStr "pw")).1 rfl rfl⟩,
   ⟨rfl, rfl, (c8_encrypt_precedence "f.pgdump.gz" vFalse vFalse).2 rfl rfl⟩⟩

/-! ## Claims about the option lookup and the confirmation gate -/

/-- C10 (confirmed): `arg` resolves in the fixed precedence order CLI value
(if neither `None` nor `False`), then caller default (if not `None`), then
config value (if present and not `None`), then `False`; and a CLI value that
is literally `False` or `None` is indistinguishable from the key being absent
altogether. -/
theorem c10_arg_precedence (cli : ArgsMap) (name : String) (default : PyVal) :
    (∀ v, cli name = some v → v ≠ vNone → v ≠ vFalse → arg cli name default = v) ∧
    ((cli name = none ∨ cli name = some vNone ∨ cli name = some vFalse) →
      default ≠ vNone → arg cli name default = default) ∧
    ((cli name = none ∨ cli name = some vNone ∨ cli name = some vFalse) →
      default = vNone →
      ∀ w, conf name = some w → w ≠ vNone → arg cli name default = w) ∧
    ((cli name = none ∨ cli name = some vNone ∨ cli name = some vFalse) →
      default = vNone → (conf name = none ∨ conf name = some vNone) →
      arg cli name default = vFalse) ∧
    arg (setKey cli name (some vFalse)) name default =
      arg (setKey cli name none) name default ∧
    arg (setKey cli name (some vNone)) name default =
      arg (setKey cli name none) name default := by
  refine ⟨?_, ?_, ?_, ?_, ?_, ?_⟩
  · intro v hv h1 h2
    simp [arg, hv, h1, h2]
  · rintro (h | h | h) hd <;> simp [arg, h, argRest, hd]
  · rintro (h | h | h) hd w hw hwne <;> subst hd <;> simp [arg, h, argRest, hw, hwne]
  · rintro (h | h | h) hd (hw | hw) <;> subst hd <;> simp [arg, h, argRest, hw]
  · simp [arg, setKey, argRest]
  · simp [arg, setKey, argRest]

/-- Witness for C10: each precedence tier at a concrete input, plus the
`False`/absent indistinguishability. -/
theorem c10_arg_precedence_witness :
    arg cliWithBucket "--bucket" vNone = vStr "b1" ∧
    arg (fun _ => none) "--bucket" (vStr "dflt") = vStr "dflt" ∧
    arg (fun _ => none) "--bucket" vNone = vStr "my_bucket_name" ∧
    arg (fun _ => none) "--name" vNone = vFalse ∧
    arg (setKey cliWithBucket "--bucket" (some vFalse)) "--bucket" vNone =
      arg (setKey cliWithBucket "--bucket" none) "--bucket" vNone :=
  ⟨(c10_arg_precedence cliWithBucket "--bucket" vNone).1 (vStr "b1") rfl
      (by decide) (by decide),
   (c10_arg_precedence (fun _ => none) "--bucket" (vStr "dflt")).2.1 (Or.inl rfl) (by decide),
   (c10_arg_precedence (fun _ => none) "--bucket" vNone).2.2.1 (Or.inl rfl) rfl
      (vStr "my_bucket_name") (by decide) (by decide),
   (c10_arg_precedence (fun _ => none) "--name" vNone).2.2.2.1 (Or.inl rfl) rfl
      (Or.inl (by decide)),
   (c10_arg_precedence cliWithBucket "--bucket" vNone).2.2.2.2.1⟩

/-- C9 (confirmed): `promptYesNo` returns `True` without reading input exactly
when `-x`/`--noconfirm` is truthy, and when it is not, the confirmation prompt
line is printed regardless of `-s`/`--silent` (the `say` call passes
`silent=False`). -/
theorem c9_prompt_gate (args : ArgsMap) (message input : String) (default : Bool) :
    (((promptYesNo args message default input).ret = some true ∧
      (promptYesNo args message default input).readsInput = false) ↔
      ((arg args "-x" vNone).truthy || (arg args "--noconfirm" vNone).truthy) = true) ∧
    (((arg args "-x" vNone).truthy || (arg args "--noconfirm" vNone).truthy) = false →
      (promptYesNo args message default input).printed =
        [message ++ (if default then " [Y/n]:" else " [y/N]:")]) := by
  by_cases h : ((arg args "-x" vNone).truthy || (arg args "--noconfirm" vNone).truthy) = true
  · constructor
    · simp [promptYesNo, h]
    · intro hfalse
      rw [h] at hfalse
      cases hfalse
  · rw [Bool.not_eq_true] at h
    constructor
    · rw [h]
      simp only [Bool.false_eq_true, iff_false, not_and]
      cases default <;> simp [promptYesNo, h]
    · intro _
      cases default <;> simp [promptYesNo, h, say]

/-- Witness for C9: with only `--silent` set the prompt line is still printed
(and input is read); with `--noconfirm` set the gate opens without reading. -/
theorem c9_prompt_gate_witness :
    ((arg argsSilent "-x" vNone).truthy || (arg argsSilent "--noconfirm" vNone).truthy) = false ∧
    (promptYesNo argsSilent "Restore?" false "y").printed =
      ["Restore?" ++ (if false then " [Y/n]:" else " [y/N]:")] ∧
    (promptYesNo argsNoconfirm "Restore?" false "").ret = some true ∧
    (promptYesNo argsNoconfirm "Restore?" false "").readsInput = false :=
  ⟨by decide,
   (c9_prompt_gate argsSilent "Restore?" "y" false).2 (by decide),
   ((c9_prompt_gate argsNoconfirm "Restore?" "" false).1.mpr (by decide)).1,
   ((c9_prompt_gate argsNoconfirm "Restore?" "" false).1.mpr (by decide)).2⟩

/-- C6 (confirmed): with `--date=d` (and a non-empty candidate list, which has
already passed the `NoBackupsFound` guard), the selector filters the records
to those whose `created_at` date-component equals the parsed date; when no
record remains it fails with `NoMatchForDate`, and otherwise it returns the
newest of the filtered records with the first-encountered-wins tie-break. -/
theorem c6_bydate_filter (backups : List Backup) (d : String) (td : Date)
    (hne : backups ≠ []) (hd : strptimeDateFmt d = some td) :
    (backups.filter (fun b => b.dbdate.dateOf == td) = [] →
        searchSelect backups (vStr d) vFalse = SearchOutcome.noMatchForDate) ∧
    (backups.filter (fun b => b.dbdate.dateOf == td) ≠ [] →
        ∃ m l₁ l₂,
          backups.filter (fun b => b.dbdate.dateOf == td) = l₁ ++ m :: l₂ ∧
          (∀ c ∈ l₁, dtLt c.dbdate m.dbdate = true) ∧
          (∀ b ∈ backups.filter (fun b => b.dbdate.dateOf == td),
            dtLt m.dbdate b.dbdate = false) ∧
          searchSelect backups (vStr d) vFalse = SearchOutcome.found m.filename) := by
  have hd0 : d ≠ "" := by
    intro h0
    rw [h0] at hd
    simp [strptimeDateFmt, strptimeDateFmtL, parseDay] at hd
  have htr : (vStr d).truthy = true := by simp [PyVal.truthy, hd0]
  have hlen : ¬ (backups.length < 1) := by
    cases backups with
    | nil => exact absurd rfl hne
    | cons a l => simp
  have hsel : searchSelect backups (vStr d) vFalse =
      (if (backups.filter (fun b => b.dbdate.dateOf == td)).length < 1 then
        SearchOutcome.noMatchForDate
      else
        finishMatch (matchOfOpt (findNewest
          (backups.filter (fun b => b.dbdate.dateOf == td))))) := by
    unfold searchSelect
    rw [if_neg hlen, if_pos htr]
    simp only [PyVal.asStr]
    rw [hd]
  constructor
  · intro hemp
    rw [hsel, hemp]
    rfl
  · intro hne2
    obtain ⟨m, l₁, l₂, hfind, hdec, hl₁, hmax⟩ := findNewest_spec _ hne2
    refine ⟨m, l₁, l₂, hdec, hl₁, hmax, ?_⟩
    have hpos : ¬ ((backups.filter (fun b => b.dbdate.dateOf == td)).length < 1) := by
      have := List.length_pos.mpr hne2
      omega
    rw [hsel, if_neg hpos, hfind]
    rfl

/-- Witness for C6 at the spec's example list: `--date 01/03/2021` selects the
2021-03-01 record, and `--date 01/01/2022` fails with `NoMatchForDate`. -/
theorem c6_bydate_filter_witness :
    backupsEx ≠ [] ∧
    strptimeDateFmt "01/03/2021" = some ⟨2021, 3, 1⟩ ∧
    (backupsEx.filter (fun b => b.dbdate.dateOf == (⟨2021, 3, 1⟩ : Date)) ≠ [] →
        ∃ m l₁ l₂,
          backupsEx.filter (fun b => b.dbdate.dateOf == (⟨2021, 3, 1⟩ : Date)) =
            l₁ ++ m :: l₂ ∧
          (∀ c ∈ l₁, dtLt c.dbdate m.dbdate = true) ∧
          (∀ b ∈ backupsEx.filter (fun b => b.dbdate.dateOf == (⟨2021, 3, 1⟩ : Date)),
            dtLt m.dbdate b.dbdate = false) ∧
          searchSelect backupsEx (vStr "01/03/2021") vFalse =
            SearchOutcome.found m.filename) ∧
    searchSelect backupsEx (vStr "01/03/2021") vFalse =
      SearchOutcome.found "db__2021-03-01_00-00-00.pgdump" ∧
    searchSelect backupsEx (vStr "01/01/2022") vFalse = SearchOutcome.noMatchForDate :=
  ⟨by decide, by decide,
   (c6_bydate_filter backupsEx "01/03/2021" ⟨2021, 3, 1⟩ (by decide) (by decide)).2,
   by decide, by decide⟩

theorem digitChar_toNat {n : Nat} (h : n < 10) : (digitChar n).toNat = 48 + n := by
  interval_cases n <;> rfl

theorem parseYear4_pad4 (y : Nat) (R : List Char) (hy : y ≤ 9999) :
    parseYear4 (pad4 y ++ R) = some (y, R) := by
  have h1 : y / 1000 < 10 := by omega
  have h2 : y / 100 % 10 < 10 := by omega
  have h3 : y / 10 % 10 < 10 := by omega
  have h4 : y % 10 < 10 := by omega
  show parseYear4 (digitChar (y / 1000) :: digitChar (y / 100 % 10) ::
      digitChar (y / 10 % 10) :: digitChar (y % 10) :: R) = some (y, R)
  simp only [parseYear4, digitChar_toNat h1, digitChar_toNat h2, digitChar_toNat h3,
    digitChar_toNat h4]
  split_ifs with hc
  · simp only [Option.some.injEq, Prod.mk.injEq]
    exact ⟨by omega, trivial⟩
  · exfalso; omega

theorem parseMonth_pad2 (mo : Nat) (R : List Char) (h1 : 1 ≤ mo) (h2 : mo ≤ 12) :
    parseMonth (pad2 mo ++ R) = some (mo, R) := by
  have ha : mo / 10 < 10 := by omega
  have hb : mo % 10 < 10 := by omega
  show parseMonth (digitChar (mo / 10) :: digitChar (mo % 10) :: R) = some (mo, R)
  simp only [parseMonth, digitChar_toNat ha, digitChar_toNat hb]
  split_ifs with hc1 hc2 hc3
  · simp only [Option.some.injEq, Prod.mk.injEq]
    exact ⟨by omega, trivial⟩
  · simp only [Option.some.injEq, Prod.mk.injEq]
    exact ⟨by omega, trivial⟩
  · exfalso; omega
  · exfalso; omega

theorem parseDay_pad2 (d : Nat) (R : List Char) (h1 : 1 ≤ d) (h2 : d ≤ 31) :
    parseDay (pad2 d ++ R) = some (d, R) := by
  have ha : d / 10 < 10 := by omega
  have hb : d % 10 < 10 := by omega
  show parseDay (digitChar (d / 10) :: digitChar (d % 10) :: R) = some (d, R)
  simp only [parseDay, digitChar_toNat ha, digitChar_toNat hb]
  split_ifs with hc1 hc2 hc3 hc4
  · simp only [Option.some.injEq, Prod.mk.injEq]
    exact ⟨by omega, trivial⟩
  · simp only [Option.some.injEq, Prod.mk.injEq]
    exact ⟨by omega, trivial⟩
  · simp only [Option.some.injEq, Prod.mk.injEq]
    exact ⟨by omega, trivial⟩
  · exfalso; omega
  · exfalso; omega

theorem parseHour_pad2 (h : Nat) (R : List Char) (h2 : h ≤ 23) :
    parseHour (pad2 h ++ R) = some (h, R) := by
  have ha : h / 10 < 10 := by omega
  have hb : h % 10 < 10 := by omega
  show parseHour (digitChar (h / 10) :: digitChar (h % 10) :: R) = some (h, R)
  simp only [parseHour, digitChar_toNat ha, digitChar_toNat hb]
  split_ifs with hc1 hc2 hc3
  · simp only [Option.some.injEq, Prod.mk.injEq]
    exact ⟨by omega, trivial⟩
  · simp only [Option.some.injEq, Prod.mk.injEq]
    exact ⟨by omega, trivial⟩
  · exfalso; omega
  · exfalso; omega

theorem parseMin_pad2 (m : Nat) (R : List Char) (h2 : m ≤ 59) :
    parseMin (pad2 m ++ R) = some (m, R) := by
  have ha : m / 10 < 10 := by omega
  have hb : m % 10 < 10 := by omega
  show parseMin (digitChar (m / 10) :: digitChar (m % 10) :: R) = some (m, R)
  simp only [parseMin, digitChar_toNat ha, digitChar_toNat hb]
  split_ifs with hc1 hc2
  · simp only [Option.some.injEq, Prod.mk.injEq]
    exact ⟨by omega, trivial⟩
  · exfalso; omega
  · exfalso; omega

theorem parseSec_pad2 (s : Nat) (R : List Char) (h2 : s ≤ 59) :
    parseSec (pad2 s ++ R) = some (s, R) := by
  have ha : s / 10 < 10 := by omega
  have hb : s % 10 < 10 := by omega
  show parseSec (digitChar (s / 10) :: digitChar (s % 10) :: R) = some (s, R)
  simp only [parseSec, digitChar_toNat ha, digitChar_toNat hb]
  split_ifs with hc1 hc2 hc3
  · exfalso; omega
  · simp only [Option.some.injEq, Prod.mk.injEq]
    exact ⟨by omega, trivial⟩
  · exfalso; omega
  · exfalso; omega

theorem expectChar_cons (c : Char) (R : List Char) : expectChar c (c :: R) = some R := by
  simp [expectChar]

theorem daysInMonth_le_31 (y m : Nat) : daysInMonth y m ≤ 31 := by
  unfold daysInMonth
  split_ifs <;> omega

theorem strptimeSave_roundtrip (ts : DateTime) (hv : validDT ts = true) :
    strptimeSaveL (strftimeSaveL ts) = some ts := by
  have hb := hv
  simp only [validDT, Bool.and_eq_true, decide_eq_true_eq] at hb
  obtain ⟨⟨⟨⟨⟨⟨⟨⟨hy1, hy2⟩, hm1⟩, hm2⟩, hd1⟩, hd2⟩, hh⟩, hmi⟩, hs⟩ := hb
  have e1 : strftimeSaveL ts =
      pad4 ts.year ++ ('-' :: (pad2 ts.month ++ ('-' :: (pad2 ts.day ++ ('_' :: (pad2 ts.hour ++
        ('-' :: (pad2 ts.minute ++ ('-' :: pad2 ts.second))))))))) := by
    simp [strftimeSaveL, List.append_assoc]
  rw [e1]
  unfold strptimeSaveL
  rw [parseYear4_pad4 _ _ (by omega)]
  simp only [Option.bind_eq_bind, Option.some_bind]
  rw [expectChar_cons]
  simp only [Option.some_bind]
  rw [parseMonth_pad2 _ _ hm1 hm2]
  simp only [Option.some_bind]
  rw [expectChar_cons]
  simp only [Option.some_bind]
  rw [parseDay_pad2 _ _ hd1 (by have := daysInMonth_le_31 ts.year ts.month; omega)]
  simp only [Option.some_bind]
  rw [expectChar_cons]
  simp only [Option.some_bind]
  rw [parseHour_pad2 _ _ hh]
  simp only [Option.some_bind]
  rw [expectChar_cons]
  simp only [Option.some_bind]
  rw [parseMin_pad2 _ _ hmi]
  simp only [Option.some_bind]
  rw [expectChar_cons]
  simp only [Option.some_bind]
  rw [← List.append_nil (pad2 ts.second), parseSec_pad2 _ _ hs]
  simp only [Option.some_bind]
  rw [if_pos ⟨trivial, by omega, by omega, by omega⟩]

theorem basenameL_id (cs : List Char) (h : '/' ∉ cs) : basenameL cs = cs := by
  unfold basenameL
  rw [List.takeWhile_eq_self_iff.mpr, List.reverse_reverse]
  intro c hc
  have hmem : c ∈ cs := List.mem_reverse.mp hc
  have hne : c ≠ '/' := fun he => h (he ▸ hmem)
  simp [hne]

theorem digitChar_ne_slash {n : Nat} (h : n < 10) : digitChar n ≠ '/' := by
  intro he
  have h1 := digitChar_toNat h
  rw [he] at h1
  have h2 : ('/').toNat = 47 := rfl
  omega

theorem slash_not_mem_pad2 {n : Nat} (h : n < 100) : '/' ∉ pad2 n := by
  intro hmem
  simp only [pad2, List.mem_cons, List.not_mem_nil, or_false] at hmem
  rcases hmem with h1 | h1
  · exact digitChar_ne_slash (by omega) h1.symm
  · exact digitChar_ne_slash (by omega) h1.symm

theorem slash_not_mem_pad4 {n : Nat} (h : n ≤ 9999) : '/' ∉ pad4 n := by
  intro hmem
  simp only [pad4, List.mem_cons, List.not_mem_nil, or_false] at hmem
  rcases hmem with h1 | h1 | h1 | h1 <;>
    exact digitChar_ne_slash (by omega) h1.symm

theorem slash_not_mem_strftime (ts : DateTime) (hv : validDT ts = true) :
    '/' ∉ strftimeSaveL ts := by
  have hb := hv
  simp only [validDT, Bool.and_eq_true, decide_eq_true_eq] at hb
  obtain ⟨⟨⟨⟨⟨⟨⟨⟨hy1, hy2⟩, hm1⟩, hm2⟩, hd1⟩, hd2⟩, hh⟩, hmi⟩, hs⟩ := hb
  have hd31 := daysInMonth_le_31 ts.year ts.month
  have e1 : strftimeSaveL ts =
      pad4 ts.year ++ ('-' :: (pad2 ts.month ++ ('-' :: (pad2 ts.day ++ ('_' :: (pad2 ts.hour ++
        ('-' :: (pad2 ts.minute ++ ('-' :: pad2 ts.second))))))))) := by
    simp [strftimeSaveL, List.append_assoc]
  rw [e1]
  intro hmem
  simp only [List.mem_append, List.mem_cons] at hmem
  rcases hmem with h | h | h | h | h | h | h | h | h | h | h
  · exact slash_not_mem_pad4 (by omega) h
  · exact absurd h (by decide)
  · exact slash_not_mem_pad2 (by omega) h
  · exact absurd h (by decide)
  · exact slash_not_mem_pad2 (by omega) h
  · exact absurd h (by decide)
  · exact slash_not_mem_pad2 (by omega) h
  · exact absurd h (by decide)
  · exact slash_not_mem_pad2 (by omega) h
  · exact absurd h (by decide)
  · exact slash_not_mem_pad2 (by omega) h

theorem pyTailSlice_append (A B : List Char) (k : Nat) (h : k ≤ B.length) :
    pyTailSlice (A ++ B) k = pyTailSlice B k := by
  unfold pyTailSlice
  rw [List.length_append]
  have he : A.length + B.length - k = A.length + (B.length - k) := by omega
  rw [he, drop_len_append]

theorem pyDropTail_append (A B : List Char) (k : Nat) (hk : B.length = k) :
    pyDropTail (A ++ B) k = A := by
  unfold pyDropTail
  rw [List.length_append, hk]
  have he : A.length + k - k = A.length := by omega
  rw [he]
  exact take_len_append A B

theorem findSubAux_cons (c : Char) (t pat : List Char) :
    findSubAux (c :: t) pat =
      if pat.isPrefixOf (c :: t) then some 0 else (findSubAux t pat).map Nat.succ := rfl

theorem hasSub_cons_false {c : Char} {t pat : List Char} (h : hasSub (c :: t) pat = false) :
    pat.isPrefixOf (c :: t) = false ∧ hasSub t pat = false := by
  unfold hasSub at h ⊢
  rw [findSubAux_cons] at h
  by_cases hp : pat.isPrefixOf (c :: t)
  · rw [if_pos hp] at h
    simp at h
  · rw [if_neg hp] at h
    rw [Bool.not_eq_true] at hp
    refine ⟨hp, ?_⟩
    simpa using h

theorem findSubAux_sep (db ds : List Char)
    (hsep : hasSub db ['_', '_'] = false)
    (hlast : db.getLast? ≠ some '_') :
    findSubAux (db ++ '_' :: '_' :: ds) ['_', '_'] = some db.length := by
  induction db with
  | nil =>
    show findSubAux ('_' :: '_' :: ds) ['_', '_'] = some 0
    rw [findSubAux_cons, if_pos (by simp [List.isPrefixOf])]
  | cons c t ih =>
    obtain ⟨hpre, hsub_t⟩ := hasSub_cons_false hsep
    rw [List.cons_append, findSubAux_cons]
    have hcond : (['_', '_'].isPrefixOf (c :: (t ++ '_' :: '_' :: ds))) = false := by
      by_cases hc : c = '_'
      · subst hc
        cases t with
        | nil => simp [List.getLast?] at hlast
        | cons c2 t2 =>
          have hc2 : ('_' == c2) = false := by
            rw [beq_eq_false_iff_ne]
            intro he
            rw [← he] at hpre
            simp [List.isPrefixOf] at hpre
          simp [List.isPrefixOf, hc2]
      · have hcc : ('_' == c) = false := by
          rw [beq_eq_false_iff_ne]
          exact fun he => hc he.symm
        simp [List.isPrefixOf, hcc]
    rw [if_neg (by simp [hcond])]
    show (findSubAux (t ++ '_' :: '_' :: ds) ['_', '_']).map Nat.succ = some (c :: t).length
    have hlast' : t.getLast? ≠ some '_' := by
      cases t with
      | nil => simp
      | cons a u => simpa [List.getLast?_cons_cons] using hlast
    rw [ih hsub_t hlast']
    rfl

theorem pySlice_zero_nat (cs : List Char) (n : Nat) (h : n ≤ cs.length) :
    pySlice cs 0 (n : Int) = cs.take n := by
  unfold pySlice pyNorm
  rw [if_neg (by omega), if_neg (by omega)]
  simp [Nat.min_eq_left h]

theorem pySliceFrom_nat (cs : List Char) (n : Nat) (h : n ≤ cs.length) :
    pySliceFrom cs (n : Int) = cs.drop n := by
  unfold pySliceFrom pyNorm
  rw [if_neg (by omega)]
  simp [Nat.min_eq_left h]

theorem parseFilenameL_encode (db : List Char) (ts : DateTime)
    (hv : validDT ts = true)
    (hsep : hasSub db ['_', '_'] = false)
    (hlast : db.getLast? ≠ some '_')
    (hslash : '/' ∉ db) :
    parseFilenameL (db ++ ['_', '_'] ++ strftimeSaveL ts ++ ".pgdump".toList) =
      some (db, ts) := by
  have hL : db ++ ['_', '_'] ++ strftimeSaveL ts ++ ".pgdump".toList =
      (db ++ '_' :: '_' :: strftimeSaveL ts) ++ ".pgdump".toList := by
    simp [List.append_assoc]
  rw [hL]
  have hnos : '/' ∉ (db ++ '_' :: '_' :: strftimeSaveL ts) ++ ".pgdump".toList := by
    intro hm
    rcases List.mem_append.mp hm with h | h
    · rcases List.mem_append.mp h with h1 | h1
      · exact hslash h1
      · rcases List.mem_cons.mp h1 with h2 | h2
        · exact absurd h2 (by decide)
        · rcases List.mem_cons.mp h2 with h3 | h3
          · exact absurd h3 (by decide)
          · exact slash_not_mem_strftime ts hv h3
    · exact absurd h (by decide)
  unfold parseFilenameL
  rw [basenameL_id _ hnos]
  have hc1 : (pyTailSlice ((db ++ '_' :: '_' :: strftimeSaveL ts) ++ ".pgdump".toList) 4 ==
      ".gpg".toList) = false := by
    rw [pyTailSlice_append _ _ _ (by decide)]
    decide
  have hc2 : (pyTailSlice ((db ++ '_' :: '_' :: strftimeSaveL ts) ++ ".pgdump".toList) 3 ==
      ".gz".toList) = false := by
    rw [pyTailSlice_append _ _ _ (by decide)]
    decide
  have hc3 : (pyTailSlice ((db ++ '_' :: '_' :: strftimeSaveL ts) ++ ".pgdump".toList) 7 ==
      ".pgdump".toList) = true := by
    rw [pyTailSlice_append _ _ _ (by decide)]
    decide
  simp only [hc1, hc2, hc3, Bool.false_eq_true, if_false, if_true]
  rw [pyDropTail_append _ _ 7 (by decide)]
  have hfind : pyFind (db ++ '_' :: '_' :: strftimeSaveL ts) ['_', '_'] = (db.length : Int) := by
    unfold pyFind
    rw [findSubAux_sep db (strftimeSaveL ts) hsep hlast]
  rw [hfind]
  have hlenA : db.length ≤ (db ++ '_' :: '_' :: strftimeSaveL ts).length := by
    simp [List.length_append]
  have hslice1 : pySlice (db ++ '_' :: '_' :: strftimeSaveL ts) 0 (db.length : Int) = db := by
    rw [pySlice_zero_nat _ _ hlenA]
    exact take_len_append db ('_' :: '_' :: strftimeSaveL ts)
  have hcast : (db.length : Int) + 2 = ((db.length + 2 : Nat) : Int) := by omega
  have hslice2 : pySliceFrom (db ++ '_' :: '_' :: strftimeSaveL ts) ((db.length : Int) + 2) =
      strftimeSaveL ts := by
    rw [hcast, pySliceFrom_nat _ _ (by simp [List.length_append])]
    have hre : db ++ '_' :: '_' :: strftimeSaveL ts = (db ++ ['_', '_']) ++ strftimeSaveL ts := by
      simp
    rw [hre]
    have hlen2 : db.length + 2 = (db ++ ['_', '_']).length + 0 := by simp
    rw [hlen2, drop_len_append]
    rfl
  rw [hslice1, hslice2, strptimeSave_roundtrip ts hv]
  rfl

/-- C1 (amended): if `database_name` contains no `__`, no `/`, and does not
end in `_`, and the timestamp is exactly representable in the configured
format, then decoding the encoded filename returns exactly the pair. -/
theorem c1_roundtrip_amended (db : String) (ts : DateTime)
    (hv : validDT ts = true)
    (hsep : hasSub db.toList ['_', '_'] = false)
    (hlast : db.toList.getLast? ≠ some '_')
    (hslash : '/' ∉ db.toList) :
    parseFilename (encodeFilename db ts) = some (db, ts) := by
  have e : (encodeFilename db ts).toList =
      db.toList ++ ['_', '_'] ++ strftimeSaveL ts ++ ".pgdump".toList := by
    show (db ++ "__" ++ strftimeSave ts ++ ".pgdump").data =
      db.data ++ ['_', '_'] ++ strftimeSaveL ts ++ ".pgdump".data
    rw [String.data_append, String.data_append, String.data_append]
    rfl
  unfold parseFilename
  rw [e, parseFilenameL_encode db.toList ts hv hsep hlast hslash]
  rfl

/-- C1 counterexample: `"db_"` contains no `__`, yet the round-trip fails,
because the first `__` of the encoded name starts inside the database name. -/
theorem c1_counterexample :
    hasSub "db_".toList ['_', '_'] = false ∧ validDT dtEx = true ∧
    parseFilename (encodeFilename "db_" dtEx) = none := by
  refine ⟨by decide, by decide, ?_⟩
  rfl

/-- Witness for C1 (amended) at `"mydb"` and 2021-03-01 12:30:45. -/
theorem c1_roundtrip_amended_witness :
    validDT dtEx = true ∧
    hasSub "mydb".toList ['_', '_'] = false ∧
    "mydb".toList.getLast? ≠ some '_' ∧
    '/' ∉ "mydb".toList ∧
    parseFilename (encodeFilename "mydb" dtEx) = some ("mydb", dtEx) :=
  ⟨by decide, by decide, by decide, by decide,
   c1_roundtrip_amended "mydb" dtEx (by decide) (by decide) (by decide) (by decide)⟩
